import Mathlib

/-!
Verification of the go-humble/rest REST client (rest.go, errors.go,
default_id.go) via a shallow embedding in Lean 4.

Go values that can appear as model fields are embedded as the inductive
`GoValue`; machine integers are modelled as `Int`/`Nat` (the encoder only
prints them in decimal, so no overflow arithmetic is involved); Go strings
and byte slices are modelled as lists of byte values (< 256).  Fallible Go
functions returning `(T, error)` become `Except` values.  The HTTP
transport and the JSON marshaller are external collaborators and are
passed in as explicit function parameters; each client operation returns
the list of HTTP requests it issued together with its result, so that
properties about methods, URLs, headers and request counts are statable.
-/

namespace Rest

/-- Bytes of a Go `string` or `[]byte` value; each entry is a byte < 256. -/
abbrev Bytes := List Nat

/-- Embedding of the Go values that can occur as a model or model field:
the scalar types accepted by `urlEncodeField` (`int` and its variants,
`uint` and its variants, `bool`, `string`, `[]byte`), pointers (possibly
nil), structs (an ordered list of exported fields), and `float64` as a
representative unsupported type (a float is opaque here, identified by its
printed form). -/
inductive GoValue where
  | vint (i : Int)
  | vuint (n : Nat)
  | vbool (b : Bool)
  | vstring (s : Bytes)
  | vbytes (s : Bytes)
  | vptr (p : Option GoValue)
  | vfloat (printed : String)
  | vstruct (fields : List (String × GoValue))

/-- Result of `reflect.Value.Kind() == reflect.Struct` on an embedded value. -/
def GoValue.isStruct : GoValue → Bool
  | .vstruct _ => true
  | _ => false

/-- Errors produced by `urlEncodeField` (rest.go lines 278-301): the
sentinel `nilFieldError`, or the `fmt.Errorf` for an unsupported type.
Go's message interpolates the offending value (`%v`) and its type (`%T`)
and nothing else, so the error is modelled as carrying that value. -/
inductive FieldErr where
  | nilField
  | unsupported (v : GoValue)

/-- Errors returned by the client operations, following the error values
constructed in rest.go and errors.go.  `invalidRecord` and
`invalidCollection` carry the `errors.New` / `fmt.Errorf` message text;
`unsupportedFieldType` carries the offending field value (Go interpolates
its `%v` and `%T`); `httpError` is the `HTTPError` struct of errors.go
with fields URL, StatusCode and Body. -/
inductive RestErr where
  | invalidRecord (msg : String)
  | unsupportedFieldType (v : GoValue)
  | invalidCollection (msg : String)
  | transportError (method url msg : String)
  | httpError (url : String) (statusCode : Nat) (body : Bytes)
  | jsonError (msg : String)
  | contentTypeError (contentType : String)

/-- Whether Go's `url.QueryEscape` leaves the byte unescaped: ASCII
letters, digits, and `-`, `.`, `_`, `~`. -/
def isUnescapedByte (c : Nat) : Bool :=
  (65 ≤ c && c ≤ 90) || (97 ≤ c && c ≤ 122) || (48 ≤ c && c ≤ 57) ||
  c == 45 || c == 46 || c == 95 || c == 126

/-- Upper-case hexadecimal digit for a value < 16, as used by Go's
percent-escaping. -/
def hexUpper (n : Nat) : Char :=
  if n < 10 then Char.ofNat (48 + n) else Char.ofNat (55 + n)

/-- Escape one byte the way Go's `url.QueryEscape` does: unescaped bytes
pass through, a space becomes `+`, everything else becomes `%XX` with
upper-case hex digits. -/
def escapeByte (c : Nat) : String :=
  if isUnescapedByte c then String.singleton (Char.ofNat c)
  else if c == 32 then "+"
  else String.mk ['%', hexUpper (c / 16 % 16), hexUpper (c % 16)]

/-- Go's `url.QueryEscape` over the bytes of a string. -/
def queryEscape (s : Bytes) : String :=
  String.join (s.map escapeByte)

/-- Go's `fmt.Sprint` of a `bool`. -/
def fmtBool (b : Bool) : String :=
  if b then "true" else "false"

/-- Embedding of `urlEncodeField` (rest.go lines 284-302): follow pointer
indirection, returning `nilFieldError` on a nil pointer; then dispatch on
the concrete type — integers, unsigned integers and bools are printed with
`fmt.Sprint`, strings and byte slices are query-escaped, and anything else
is an unsupported-type error carrying the offending value. -/
def urlEncodeField : GoValue → Except FieldErr String
  | .vptr none => .error .nilField
  | .vptr (some v) => urlEncodeField v
  | .vint i => .ok (toString i)
  | .vuint n => .ok (toString n)
  | .vbool b => .ok (fmtBool b)
  | .vstring s => .ok (queryEscape s)
  | .vbytes s => .ok (queryEscape s)
  | v => .error (.unsupported v)

/-- The pointer-dereferencing loop at the top of `urlEncodeFields`
(rest.go lines 249-254): `none` when some pointer in the chain is nil,
otherwise the final non-pointer value. -/
def derefPtrs : GoValue → Option GoValue
  | .vptr none => none
  | .vptr (some v) => derefPtrs v
  | v => some v

/-- Message of the `errors.New` at rest.go line 251. -/
def nilPointerMsg : String :=
  "Error encoding model as url-encoded data: model was a nil pointer."

/-- Message of the `fmt.Errorf` at rest.go line 257. -/
def notStructMsg : String :=
  "Error encoding model as url-encoded data: model must be a struct or a pointer to a struct."

/-- The field loop of `urlEncodeFields` (rest.go lines 259-274): encode
each field in declaration order, skipping fields whose encoding returns
`nilFieldError`, aborting with the error otherwise, and collecting
`name=value` strings. -/
def encodeFieldList : List (String × GoValue) → Except RestErr (List String)
  | [] => .ok []
  | (n, v) :: rest =>
    match urlEncodeField v with
    | .error .nilField => encodeFieldList rest
    | .error (.unsupported u) => .error (.unsupportedFieldType u)
    | .ok s =>
      match encodeFieldList rest with
      | .error e => .error e
      | .ok tail => .ok ((n ++ "=" ++ s) :: tail)

/-- Embedding of `urlEncodeFields` (rest.go lines 246-276): dereference
the model, failing on a nil pointer or a non-struct value, then encode the
fields and join them with `&`. -/
def urlEncodeFields (model : GoValue) : Except RestErr String :=
  match derefPtrs model with
  | none => .error (.invalidRecord nilPointerMsg)
  | some (.vstruct fields) =>
    match encodeFieldList fields with
    | .error e => .error e
    | .ok parts => .ok (String.intercalate "&" parts)
  | some _ => .error (.invalidRecord notStructMsg)

/-- The `ContentJSON` constant of rest.go. -/
def contentJSON : String := "application/json"

/-- The `ContentURLEncoded` constant of rest.go. -/
def contentURLEncoded : String := "application/x-www-form-urlencoded"

/-- The `Client` struct of rest.go: its one configuration field is the
content type (a string type in Go). -/
structure Client where
  contentType : String

/-- The `NewClient` constructor of rest.go: the default content type is
url-encoding. -/
def newClient : Client :=
  { contentType := contentURLEncoded }

/-- An HTTP request as built by the client: method, URL, the
`Content-Type` and `Accept` headers (absent when never set), and body. -/
structure Request where
  method : String
  url : String
  contentType : Option String
  accept : Option String
  body : String
deriving DecidableEq

/-- An HTTP response delivered by the transport: status code and the body
bytes. -/
structure Response where
  statusCode : Nat
  body : Bytes

/-- The HTTP transport collaborator (`http.DefaultClient.Do`): sends a
request and either fails at the transport level (with a message) or
delivers a response. -/
structure Transport where
  send : Request → Except String Response

/-- Embedding of `newHTTPError` (errors.go): an `HTTPError` whose URL is
the request URL, whose Body is the full response body, and whose
StatusCode is the response status. -/
def newHTTPError (url : String) (res : Response) : RestErr :=
  .httpError url res.statusCode res.body

/-- Request construction inside `sendRequestAndUnmarshal` (rest.go lines
200-210): the `Content-Type` header is set to the client's content type
only when the data string is non-empty, and `Accept: application/json` is
always set. -/
def buildRequest (c : Client) (method url data : String) : Request :=
  { method := method
    url := url
    contentType := if data = "" then none else some c.contentType
    accept := some "application/json"
    body := data }

/-- Embedding of `sendRequestAndUnmarshal` (rest.go lines 198-226): build
the request, send it, wrap a transport failure, return an `HTTPError` when
the status code is not 2xx, and otherwise hand back the response body (the
subsequent `json.Unmarshal` into the caller's value is the JSON
collaborator's job and is outside this model).  The first component is the
list of requests issued. -/
def Client.sendRequestAndUnmarshal (c : Client) (t : Transport)
    (method url data : String) : List Request × Except RestErr Bytes :=
  match t.send (buildRequest c method url data) with
  | .error msg =>
    ([buildRequest c method url data], .error (.transportError method url msg))
  | .ok res =>
    if res.statusCode / 100 ≠ 2 then
      ([buildRequest c method url data], .error (newHTTPError url res))
    else
      ([buildRequest c method url data], .ok res.body)

/-- Embedding of `Client.encodeFields` (rest.go lines 230-240): dispatch
on the configured content type, using the url-encoder, the JSON marshal
collaborator, or failing on an unknown content type. -/
def Client.encodeFields (c : Client) (jsonMarshal : GoValue → Except String String)
    (model : GoValue) : Except RestErr String :=
  if c.contentType = contentURLEncoded then urlEncodeFields model
  else if c.contentType = contentJSON then
    match jsonMarshal model with
    | .ok data => .ok data
    | .error e => .error (.jsonError e)
  else .error (.contentTypeError c.contentType)

/-- A value satisfying the `Model` interface: the results of its
`ModelId()` and `RootURL()` methods, and its underlying field value used
for encoding. -/
structure ModelInstance where
  modelId : String
  rootURL : String
  value : GoValue

/-- Embedding of `Client.Create` (rest.go lines 78-85): encode the fields
and POST them to the model's root URL. -/
def Client.create (c : Client) (jsonMarshal : GoValue → Except String String)
    (t : Transport) (m : ModelInstance) : List Request × Except RestErr Bytes :=
  match c.encodeFields jsonMarshal m.value with
  | .error e => ([], .error e)
  | .ok data => c.sendRequestAndUnmarshal t "POST" m.rootURL data

/-- Embedding of `Client.Read` (rest.go lines 93-96): GET from the root
URL with the id argument appended. -/
def Client.read (c : Client) (t : Transport) (id : String) (m : ModelInstance) :
    List Request × Except RestErr Bytes :=
  c.sendRequestAndUnmarshal t "GET" (m.rootURL ++ "/" ++ id) ""

/-- Embedding of `Client.Update` (rest.go lines 121-128): encode the
fields and PATCH them to the root URL with the model's id appended. -/
def Client.update (c : Client) (jsonMarshal : GoValue → Except String String)
    (t : Transport) (m : ModelInstance) : List Request × Except RestErr Bytes :=
  match c.encodeFields jsonMarshal m.value with
  | .error e => ([], .error e)
  | .ok data =>
    c.sendRequestAndUnmarshal t "PATCH" (m.rootURL ++ "/" ++ m.modelId) data

/-- The DELETE request built by `Client.Delete` (rest.go line 135):
`http.NewRequest("DELETE", fullURL, nil)` with no headers set at all. -/
def deleteRequest (m : ModelInstance) : Request :=
  { method := "DELETE"
    url := m.rootURL ++ "/" ++ m.modelId
    contentType := none
    accept := none
    body := "" }

/-- Embedding of `Client.Delete` (rest.go lines 133-143): build a DELETE
request to root URL plus the model id, send it, wrap a transport failure,
and otherwise return nil — the response (its status code included) is
discarded. -/
def Client.delete (c : Client) (t : Transport) (m : ModelInstance) :
    List Request × Except RestErr Unit :=
  match t.send (deleteRequest m) with
  | .error msg =>
    ([deleteRequest m],
      .error (.transportError "DELETE" (m.rootURL ++ "/" ++ m.modelId) msg))
  | .ok _res => ([deleteRequest m], .ok ())

/-- A Go type expression as inspected by `getURLFromModels` via
reflection: a named (non-pointer, non-slice) type, a pointer type, or a
slice type. -/
inductive GoType where
  | named (n : String)
  | ptr (t : GoType)
  | slice (t : GoType)
deriving DecidableEq

/-- Rendering of a type as `%T` prints it, used in the
`getURLFromModels` error messages. -/
def goTypeString : GoType → String
  | .named n => n
  | .ptr t => "*" ++ goTypeString t
  | .slice t => "[]" ++ goTypeString t

/-- The pointer-stripping loop of `getURLFromModels` (rest.go lines
171-175): the base non-pointer type together with the number of
indirections removed. -/
def stripPtr : GoType → GoType × Nat
  | .ptr t => ((stripPtr t).1, (stripPtr t).2 + 1)
  | t => (t, 0)

/-- The `Addr` loop of `getURLFromModels` (rest.go lines 182-184): wrap a
type in `n` pointer constructors. -/
def wrapPtr : GoType → Nat → GoType
  | t, 0 => t
  | t, n + 1 => .ptr (wrapPtr t n)

/-- The reflection environment `getURLFromModels` operates in: which types
implement the `Model` interface, and what `RootURL()` answers on the zero
value of a given type (the value `reflect.New` plus the `Addr` loop
produces). -/
structure ModelEnv where
  implementsModel : GoType → Bool
  zeroRootURL : GoType → String

/-- Embedding of `getURLFromModels` (rest.go lines 148-189): fail with an
invalid-collection error unless the argument type is a pointer to a slice
whose element type implements `Model`; otherwise strip the element type's
pointers, instantiate a zero value of the base type, restore the pointer
depth, and ask that value for its root URL. -/
def getURLFromModels (env : ModelEnv) (typ : GoType) : Except RestErr String :=
  match typ with
  | .ptr (.slice elem) =>
    if env.implementsModel elem then
      .ok (env.zeroRootURL (wrapPtr (stripPtr elem).1 (stripPtr elem).2))
    else
      .error (.invalidCollection
        ("models must be a pointer to a slice of models. The elem type " ++
          goTypeString elem ++ " does not implement model"))
  | .ptr other =>
    .error (.invalidCollection
      ("models must be a pointer to a slice of models. " ++
        goTypeString (.ptr other) ++ " is not a pointer to a slice"))
  | other =>
    .error (.invalidCollection
      ("models must be a pointer to a slice of models. " ++
        goTypeString other ++ " is not a pointer."))

/-- Embedding of `Client.ReadAll` (rest.go lines 105-111): determine the
URL from the collection's type, failing without sending anything if that
fails, and otherwise GET from that URL.  The slice contents are received
(the Go function gets the full slice pointer) but, like the real code,
only the type is consulted to build the request; the contents matter only
to the out-of-model `json.Unmarshal`. -/
def Client.readAll (c : Client) (t : Transport) (env : ModelEnv)
    (typ : GoType) (contents : List GoValue) :
    List Request × Except RestErr Bytes :=
  match getURLFromModels env typ with
  | .error e => ([], .error e)
  | .ok url => c.sendRequestAndUnmarshal t "GET" url ""

/-- Rendering of one supported scalar value, exactly as the type dispatch
of `urlEncodeField` produces it in its non-pointer, non-error branches. -/
def renderScalar : GoValue → Option String
  | .vint i => some (toString i)
  | .vuint n => some (toString n)
  | .vbool b => some (fmtBool b)
  | .vstring s => some (queryEscape s)
  | .vbytes s => some (queryEscape s)
  | _ => none

/-- A field list paired with its expected encodings: every field
dereferences through non-nil pointers to a supported scalar, and each
rendered entry is the verbatim field name, `=`, and the scalar's encoded
form, kept in declaration order. -/
inductive FieldsRendered : List (String × GoValue) → List String → Prop
  | nil : FieldsRendered [] []
  | cons {n : String} {v u : GoValue} {s : String}
      {rest : List (String × GoValue)} {out : List String} :
      derefPtrs v = some u → renderScalar u = some s →
      FieldsRendered rest out →
      FieldsRendered ((n, v) :: rest) ((n ++ "=" ++ s) :: out)

/-- A JSON marshal collaborator for concrete evaluations; never invoked
by a client whose content type is url-encoding. -/
def jmNone : GoValue → Except String String := fun _ => .error "unused"

/-- A transport answering 200 with an empty body to every request. -/
def t200 : Transport := ⟨fun _ => .ok ⟨200, []⟩⟩

/-- A transport answering 404 with body bytes `nop` to every request. -/
def t404 : Transport := ⟨fun _ => .ok ⟨404, [110, 111, 112]⟩⟩

/-- A concrete model: id `1`, root URL `/todos`, one string field
`Title` holding the bytes of `Test`. -/
def m0 : ModelInstance :=
  ⟨"1", "/todos", .vstruct [("Title", .vstring [84, 101, 115, 116])]⟩

/-- A concrete model with no fields at all. -/
def mEmpty : ModelInstance := ⟨"1", "/todos", .vstruct []⟩

/-- A reflection environment where exactly the pointer type `*Todo`
implements `Model`, answering `/todos` as the root URL of its zero
value. -/
def env0 : ModelEnv :=
  { implementsModel := fun ty => ty == .ptr (.named "Todo")
    zeroRootURL := fun ty => if ty == .ptr (.named "Todo") then "/todos" else "" }

/-- Fields of a concrete flat struct: a string, a bool, and a non-nil
pointer to an int. -/
def flatFields : List (String × GoValue) :=
  [("Title", .vstring [84, 101, 115, 116]), ("IsCompleted", .vbool true),
    ("Count", .vptr (some (.vint (-2))))]

/-- Expected rendering of `flatFields`, entry by entry. -/
def flatRendered : List String :=
  ["Title" ++ "=" ++ queryEscape [84, 101, 115, 116],
    "IsCompleted" ++ "=" ++ fmtBool true,
    "Count" ++ "=" ++ toString (-2 : Int)]

/-! Helper lemmas about the field encoder. -/

/-- Characterization of `urlEncodeField`: it dereferences pointers like
`derefPtrs` and then renders like `renderScalar`, with the sentinel nil
error on a nil chain and the unsupported error on a non-scalar value. -/
theorem urlEncodeField_eq : ∀ v : GoValue,
    urlEncodeField v =
      (match derefPtrs v with
       | none => Except.error FieldErr.nilField
       | some u =>
         match renderScalar u with
         | some s => Except.ok s
         | none => Except.error (FieldErr.unsupported u))
  | .vptr none => rfl
  | .vptr (some w) => urlEncodeField_eq w
  | .vint _ => rfl
  | .vuint _ => rfl
  | .vbool _ => rfl
  | .vstring _ => rfl
  | .vbytes _ => rfl
  | .vfloat _ => rfl
  | .vstruct _ => rfl

/-- A field whose pointer chain reaches nil encodes to the sentinel nil
error. -/
theorem urlEncodeField_of_nil (v : GoValue) (h : derefPtrs v = none) :
    urlEncodeField v = .error .nilField := by
  rw [urlEncodeField_eq, h]

/-- A field that dereferences to a renderable scalar encodes to that
scalar's rendering. -/
theorem urlEncodeField_of_scalar (v u : GoValue) (s : String)
    (hd : derefPtrs v = some u) (hr : renderScalar u = some s) :
    urlEncodeField v = .ok s := by
  rw [urlEncodeField_eq, hd]
  dsimp only
  rw [hr]

/-- A field that dereferences to a non-scalar value encodes to the
unsupported-type error carrying that value. -/
theorem urlEncodeField_of_unsupported (v u : GoValue)
    (hd : derefPtrs v = some u) (hr : renderScalar u = none) :
    urlEncodeField v = .error (.unsupported u) := by
  rw [urlEncodeField_eq, hd]
  dsimp only
  rw [hr]

/-- The field loop turns a fully rendered field list into exactly its
renderings. -/
theorem encodeFieldList_of_rendered (fields : List (String × GoValue))
    (rendered : List String) (h : FieldsRendered fields rendered) :
    encodeFieldList fields = .ok rendered := by
  induction h with
  | nil => rfl
  | cons hd hr _ ih =>
    rw [encodeFieldList, urlEncodeField_of_scalar _ _ _ hd hr, ih]

/-- Dropping a nil-pointer field anywhere in the list leaves the field
loop's result unchanged. -/
theorem encodeFieldList_skip_nil (pre post : List (String × GoValue))
    (n : String) (v : GoValue) (h : derefPtrs v = none) :
    encodeFieldList (pre ++ (n, v) :: post) = encodeFieldList (pre ++ post) := by
  induction pre with
  | nil => simp [encodeFieldList, urlEncodeField_of_nil v h]
  | cons p rest ih =>
    obtain ⟨pn, pv⟩ := p
    cases hpv : urlEncodeField pv with
    | error e => cases e <;> simp [encodeFieldList, hpv, ih]
    | ok s => simp [encodeFieldList, hpv, ih]

/-- The request list of `sendRequestAndUnmarshal` is always exactly the
one request it builds. -/
theorem sendRequestAndUnmarshal_requests (c : Client) (t : Transport)
    (method url data : String) :
    (c.sendRequestAndUnmarshal t method url data).1 =
      [buildRequest c method url data] := by
  unfold Client.sendRequestAndUnmarshal
  cases t.send (buildRequest c method url data) with
  | error msg => rfl
  | ok res =>
    dsimp only
    split <;> rfl

/-- The `Addr` loop undoes the pointer-stripping loop: re-wrapping the
base type by the recorded depth restores the original type. -/
theorem wrapPtr_stripPtr : ∀ t : GoType, wrapPtr (stripPtr t).1 (stripPtr t).2 = t
  | .named _ => rfl
  | .slice _ => rfl
  | .ptr t => by rw [stripPtr, wrapPtr, wrapPtr_stripPtr t]

/-- Helper: a successful send with a non-2xx status makes
`sendRequestAndUnmarshal` return the `HTTPError` built from the request
URL and the response. -/
theorem sendRequestAndUnmarshal_non2xx (c : Client) (t : Transport)
    (method url data : String) (res : Response)
    (hs : t.send (buildRequest c method url data) = .ok res)
    (h2 : res.statusCode / 100 ≠ 2) :
    c.sendRequestAndUnmarshal t method url data =
      ([buildRequest c method url data],
        .error (.httpError url res.statusCode res.body)) := by
  unfold Client.sendRequestAndUnmarshal
  rw [hs]
  dsimp only
  rw [if_pos h2]
  rfl

/-! Claim theorems. -/

/-- Claim C1 (code bug witness): modelled on rest.go lines 133-143,
`Delete` discards the transport's response entirely, so a Delete whose
send succeeds with status 404 — outside the 2xx range — still returns
nil rather than an `HTTPError`, contradicting the claim and the
repository's own README ("Whenever a non-2xx status code is returned by
the server, the `Create`, `Read`, `Update`, `Delete`, and `ReadAll`
methods will return an `HTTPError`"). -/
theorem delete_returns_nil_on_404 :
    (newClient.delete t404 m0).2 = .ok () := rfl

/-- Claim C2: for Create, Read, Update and ReadAll, a send that succeeds
with a status whose hundreds digit is not 2 yields an `HTTPError` whose
URL is the exact request URL attempted, whose StatusCode is the
response's status, and whose Body is the full raw response body. -/
theorem non2xx_yields_httpError (c : Client)
    (jm : GoValue → Except String String) (t : Transport)
    (m : ModelInstance) (id : String) (env : ModelEnv) (typ : GoType)
    (contents : List GoValue) (res : Response)
    (h2 : res.statusCode / 100 ≠ 2) :
    (∀ data, c.encodeFields jm m.value = .ok data →
        t.send (buildRequest c "POST" m.rootURL data) = .ok res →
        (c.create jm t m).2 =
          .error (.httpError m.rootURL res.statusCode res.body)) ∧
    (t.send (buildRequest c "GET" (m.rootURL ++ "/" ++ id) "") = .ok res →
        (c.read t id m).2 =
          .error (.httpError (m.rootURL ++ "/" ++ id) res.statusCode res.body)) ∧
    (∀ data, c.encodeFields jm m.value = .ok data →
        t.send (buildRequest c "PATCH" (m.rootURL ++ "/" ++ m.modelId) data) = .ok res →
        (c.update jm t m).2 =
          .error (.httpError (m.rootURL ++ "/" ++ m.modelId) res.statusCode res.body)) ∧
    (∀ url, getURLFromModels env typ = .ok url →
        t.send (buildRequest c "GET" url "") = .ok res →
        (c.readAll t env typ contents).2 =
          .error (.httpError url res.statusCode res.body)) := by
  refine ⟨?_, ?_, ?_, ?_⟩
  · intro data henc hs
    unfold Client.create
    rw [henc]
    dsimp only
    rw [sendRequestAndUnmarshal_non2xx c t "POST" m.rootURL data res hs h2]
  · intro hs
    unfold Client.read
    rw [sendRequestAndUnmarshal_non2xx c t "GET" (m.rootURL ++ "/" ++ id) "" res hs h2]
  · intro data henc hs
    unfold Client.update
    rw [henc]
    dsimp only
    rw [sendRequestAndUnmarshal_non2xx c t "PATCH" (m.rootURL ++ "/" ++ m.modelId) data res hs h2]
  · intro url hurl hs
    unfold Client.readAll
    rw [hurl]
    dsimp only
    rw [sendRequestAndUnmarshal_non2xx c t "GET" url "" res hs h2]

/-- Witness for C2: reading id `9999` from `/todos` against a transport
answering 404 yields the `HTTPError` with URL `/todos/9999`, status 404
and the full body. -/
theorem non2xx_yields_httpError_witness :
    (404 : Nat) / 100 ≠ 2 ∧
    t404.send (buildRequest newClient "GET" ("/todos" ++ "/" ++ "9999") "") =
      .ok ⟨404, [110, 111, 112]⟩ ∧
    (newClient.read t404 "9999" m0).2 =
      .error (.httpError ("/todos" ++ "/" ++ "9999") 404 [110, 111, 112]) := by
  refine ⟨by decide, rfl, ?_⟩
  exact (non2xx_yields_httpError newClient jmNone t404 m0 "9999" env0
    (.named "Todo") [] ⟨404, [110, 111, 112]⟩ (by decide)).2.1 rfl

/-- Claim C3: url-encoding a flat struct all of whose fields dereference
(through non-nil pointers) to supported scalars produces exactly the
field renderings — verbatim field name, `=`, canonical decimal/boolean
form or query-escaped bytes — in declaration order, joined with `&`. -/
theorem urlEncodeFields_flat_struct (fields : List (String × GoValue))
    (rendered : List String) (h : FieldsRendered fields rendered) :
    urlEncodeFields (.vstruct fields) =
      .ok (String.intercalate "&" rendered) := by
  unfold urlEncodeFields
  rw [show derefPtrs (.vstruct fields) = some (.vstruct fields) from rfl]
  dsimp only
  rw [encodeFieldList_of_rendered fields rendered h]

/-- Witness for C3: a struct with a string field, a bool field and a
pointer-to-int field encodes to the expected joined string. -/
theorem urlEncodeFields_flat_struct_witness :
    FieldsRendered flatFields flatRendered ∧
    urlEncodeFields (.vstruct flatFields) =
      .ok "Title=Test&IsCompleted=true&Count=-2" := by
  have h : FieldsRendered flatFields flatRendered :=
    .cons rfl rfl (.cons rfl rfl (.cons rfl rfl .nil))
  refine ⟨h, ?_⟩
  rw [urlEncodeFields_flat_struct flatFields flatRendered h]
  exact congrArg Except.ok (by decide)

/-- Claim C4: a field whose pointer chain reaches nil is omitted
entirely from the encoding — the result is identical to encoding the
struct without that field, so no `name=` fragment and no separator for
it appears, and all other fields are encoded as they otherwise would
be. -/
theorem nil_pointer_field_omitted (pre post : List (String × GoValue))
    (n : String) (v : GoValue) (h : derefPtrs v = none) :
    urlEncodeFields (.vstruct (pre ++ (n, v) :: post)) =
      urlEncodeFields (.vstruct (pre ++ post)) := by
  unfold urlEncodeFields
  rw [show derefPtrs (.vstruct (pre ++ (n, v) :: post)) =
        some (.vstruct (pre ++ (n, v) :: post)) from rfl,
    show derefPtrs (.vstruct (pre ++ post)) = some (.vstruct (pre ++ post)) from rfl]
  dsimp only
  rw [encodeFieldList_skip_nil pre post n v h]

/-- Witness for C4: a struct with a `Title` field and a nil-pointer
`Note` field encodes exactly like the struct with only `Title`. -/
theorem nil_pointer_field_omitted_witness :
    derefPtrs (.vptr none) = none ∧
    urlEncodeFields (.vstruct [("Title", .vstring [84]), ("Note", .vptr none)]) =
      urlEncodeFields (.vstruct [("Title", .vstring [84])]) := by
  refine ⟨rfl, ?_⟩
  exact nil_pointer_field_omitted [("Title", .vstring [84])] [] "Note" (.vptr none) rfl

/-- Claim C5: url-encoding a model whose pointer chain contains a nil
fails with the nil-pointer invalid-record error, and url-encoding a model
whose fully dereferenced value is not a struct fails with the
not-a-struct invalid-record error; in both cases only an error, and no
encoded fields, is produced. -/
theorem urlEncodeFields_invalid_record (m : GoValue) :
    (derefPtrs m = none →
        urlEncodeFields m = .error (.invalidRecord nilPointerMsg)) ∧
    (∀ u, derefPtrs m = some u → u.isStruct = false →
        urlEncodeFields m = .error (.invalidRecord notStructMsg)) := by
  constructor
  · intro h
    unfold urlEncodeFields
    rw [h]
  · intro u h hs
    unfold urlEncodeFields
    rw [h]
    cases u <;> simp_all [GoValue.isStruct]

/-- Witness for C5: a pointer to a nil pointer fails with the
nil-pointer message, and a bare int fails with the not-a-struct
message. -/
theorem urlEncodeFields_invalid_record_witness :
    (derefPtrs (.vptr (some (.vptr none))) = none ∧
      urlEncodeFields (.vptr (some (.vptr none))) =
        .error (.invalidRecord nilPointerMsg)) ∧
    (derefPtrs (.vint 7) = some (.vint 7) ∧ (GoValue.vint 7).isStruct = false ∧
      urlEncodeFields (.vint 7) = .error (.invalidRecord notStructMsg)) := by
  refine ⟨⟨rfl, ?_⟩, rfl, rfl, ?_⟩
  · exact (urlEncodeFields_invalid_record _).1 rfl
  · exact (urlEncodeFields_invalid_record _).2 (.vint 7) rfl rfl

/-- Claim C6 counterexample: the unsupported-field error of
`urlEncodeField` (rest.go line 300) interpolates only the offending
value and its type, not the field's name — two structs whose offending
fields differ only in name produce the identical error, so the error
cannot name the offending field. -/
theorem unsupported_error_ignores_field_name :
    urlEncodeFields (.vstruct [("Score", .vfloat "3.14")]) =
      .error (.unsupportedFieldType (.vfloat "3.14")) ∧
    urlEncodeFields (.vstruct [("Rating", .vfloat "3.14")]) =
      .error (.unsupportedFieldType (.vfloat "3.14")) :=
  ⟨rfl, rfl⟩

/-- Claim C6 as amended: url-encoding a struct with a field that
dereferences to an unsupported value (e.g. a float or nested struct)
fails - provided the preceding fields themselves encode or are skipped
as nil - with the unsupported-field-type error carrying that offending
value (from which Go prints the value and its type, but not the field
name). -/
theorem unsupported_field_yields_value_typed_error
    (pre post : List (String × GoValue)) (n : String) (v u : GoValue)
    (hpre : ∀ p ∈ pre, urlEncodeField p.2 = .error .nilField ∨
        ∃ s, urlEncodeField p.2 = .ok s)
    (hd : derefPtrs v = some u) (hr : renderScalar u = none) :
    urlEncodeFields (.vstruct (pre ++ (n, v) :: post)) =
      .error (.unsupportedFieldType u) := by
  unfold urlEncodeFields
  rw [show derefPtrs (.vstruct (pre ++ (n, v) :: post)) =
        some (.vstruct (pre ++ (n, v) :: post)) from rfl]
  dsimp only
  have key : encodeFieldList (pre ++ (n, v) :: post) =
      .error (.unsupportedFieldType u) := by
    induction pre with
    | nil =>
      simp [encodeFieldList, urlEncodeField_of_unsupported v u hd hr]
    | cons p rest ih =>
      have hrest := ih (fun q hq => hpre q (List.mem_cons_of_mem p hq))
      rcases hpre p (List.mem_cons_self p rest) with hnil | ⟨s, hok⟩
      · simp [encodeFieldList, hnil, hrest]
      · simp [encodeFieldList, hok, hrest]
  rw [key]

/-- Witness for the amended C6: a struct with a fine string field and a
float field fails with the error carrying the float value. -/
theorem unsupported_field_yields_value_typed_error_witness :
    derefPtrs (.vfloat "1.5") = some (.vfloat "1.5") ∧
    renderScalar (.vfloat "1.5") = none ∧
    urlEncodeFields (.vstruct [("Title", .vstring [84]), ("Score", .vfloat "1.5")]) =
      .error (.unsupportedFieldType (.vfloat "1.5")) := by
  refine ⟨rfl, rfl, ?_⟩
  exact unsupported_field_yields_value_typed_error
    [("Title", .vstring [84])] [] "Score" (.vfloat "1.5") (.vfloat "1.5")
    (by
      intro p hp
      simp only [List.mem_singleton] at hp
      subst hp
      exact .inr ⟨queryEscape [84], rfl⟩)
    rfl rfl

/-- Claim C7: ReadAll fails with an invalid-collection error and sends no
request when the target type is not a pointer to a slice of
Model-implementing elements; otherwise it proceeds with the URL obtained
by instantiating a zero value of the element's base type, restoring the
original pointer depth, and invoking the root-URL accessor — a
computation over the element type alone, valid for any slice contents,
the empty slice included. -/
theorem readAll_type_checking (c : Client) (t : Transport) (env : ModelEnv)
    (typ : GoType) (contents : List GoValue) :
    (∀ elem, typ = .ptr (.slice elem) → env.implementsModel elem = true →
        c.readAll t env typ contents =
          c.sendRequestAndUnmarshal t "GET" (env.zeroRootURL elem) "") ∧
    (∀ elem, typ = .ptr (.slice elem) → env.implementsModel elem = false →
        ∃ msg, c.readAll t env typ contents =
          ([], .error (.invalidCollection msg))) ∧
    ((∀ elem, typ ≠ .ptr (.slice elem)) →
        ∃ msg, c.readAll t env typ contents =
          ([], .error (.invalidCollection msg))) := by
  refine ⟨?_, ?_, ?_⟩
  · intro elem hty himpl
    subst hty
    simp [Client.readAll, getURLFromModels, himpl, wrapPtr_stripPtr elem]
  · intro elem hty himpl
    subst hty
    simp [Client.readAll, getURLFromModels, himpl]
  · intro hshape
    cases typ with
    | named n => exact ⟨_, rfl⟩
    | slice s => exact ⟨_, rfl⟩
    | ptr inner =>
      cases inner with
      | named n => exact ⟨_, rfl⟩
      | ptr s => exact ⟨_, rfl⟩
      | slice elem => exact absurd rfl (hshape elem)

/-- Witness for C7: with an environment where `*Todo` implements Model
with root URL `/todos`, ReadAll on a pointer to a slice of `*Todo`
issues the GET determined by the type, and ReadAll on a bare named type
fails with an invalid-collection error. -/
theorem readAll_type_checking_witness :
    env0.implementsModel (.ptr (.named "Todo")) = true ∧
    newClient.readAll t200 env0 (.ptr (.slice (.ptr (.named "Todo")))) [] =
      newClient.sendRequestAndUnmarshal t200 "GET"
        (env0.zeroRootURL (.ptr (.named "Todo"))) "" ∧
    (∃ msg, newClient.readAll t200 env0 (.named "Todo") [] =
      ([], .error (.invalidCollection msg))) := by
  refine ⟨by decide, ?_, ?_⟩
  · exact (readAll_type_checking newClient t200 env0
      (.ptr (.slice (.ptr (.named "Todo")))) []).1 (.ptr (.named "Todo")) rfl (by decide)
  · refine (readAll_type_checking newClient t200 env0 (.named "Todo") []).2.2 ?_
    intro elem h
    cases h

/-- Claim C8 counterexample: the only request a Delete issues is built by
`http.NewRequest` with no headers set at all (rest.go line 135), so it
carries no `Accept: application/json` header, contradicting the claim
that every request of all five operations carries that header. -/
theorem delete_request_lacks_accept_header :
    (newClient.delete t200 m0).1 = [deleteRequest m0] ∧
    (deleteRequest m0).accept = none :=
  ⟨rfl, rfl⟩

/-- Claim C8 as amended: every request built by Create, Read, ReadAll or
Update carries `Accept: application/json` regardless of the configured
content type, while Delete's request carries no Accept header at all. -/
theorem accept_header_by_operation (c : Client)
    (jm : GoValue → Except String String) (t : Transport)
    (m : ModelInstance) (id : String) (env : ModelEnv) (typ : GoType)
    (contents : List GoValue) :
    ((c.create jm t m).1.all fun r => r.accept == some "application/json") = true ∧
    ((c.read t id m).1.all fun r => r.accept == some "application/json") = true ∧
    ((c.readAll t env typ contents).1.all fun r => r.accept == some "application/json") = true ∧
    ((c.update jm t m).1.all fun r => r.accept == some "application/json") = true ∧
    ((c.delete t m).1.all fun r => r.accept == none) = true := by
  refine ⟨?_, ?_, ?_, ?_, ?_⟩
  · unfold Client.create
    cases c.encodeFields jm m.value with
    | error e => rfl
    | ok data =>
      dsimp only
      rw [List.all_eq_true]
      intro r hr
      rw [sendRequestAndUnmarshal_requests, List.mem_singleton] at hr
      subst hr
      rfl
  · rw [List.all_eq_true]
    intro r hr
    rw [Client.read, sendRequestAndUnmarshal_requests, List.mem_singleton] at hr
    subst hr
    rfl
  · unfold Client.readAll
    cases getURLFromModels env typ with
    | error e => rfl
    | ok url =>
      dsimp only
      rw [List.all_eq_true]
      intro r hr
      rw [sendRequestAndUnmarshal_requests, List.mem_singleton] at hr
      subst hr
      rfl
  · unfold Client.update
    cases c.encodeFields jm m.value with
    | error e => rfl
    | ok data =>
      dsimp only
      rw [List.all_eq_true]
      intro r hr
      rw [sendRequestAndUnmarshal_requests, List.mem_singleton] at hr
      subst hr
      rfl
  · unfold Client.delete
    cases t.send (deleteRequest m) with
    | error msg => rfl
    | ok res => rfl

/-- Claim C9: each operation issues at most one request, with exactly the
method and URL of the specification's table — Create POSTs to the root
URL, Read GETs root plus the id argument, ReadAll GETs the URL derived
from the element type, Update PATCHes root plus the model's id, and
Delete DELETEs root plus the model's id. -/
theorem one_request_with_table_method_url (c : Client)
    (jm : GoValue → Except String String) (t : Transport)
    (m : ModelInstance) (id : String) (env : ModelEnv) (typ : GoType)
    (contents : List GoValue) :
    ((c.create jm t m).1.length ≤ 1 ∧
      ((c.create jm t m).1 = [] ∨
        ∃ data, (c.create jm t m).1 = [buildRequest c "POST" m.rootURL data])) ∧
    ((c.read t id m).1 = [buildRequest c "GET" (m.rootURL ++ "/" ++ id) ""]) ∧
    ((c.readAll t env typ contents).1.length ≤ 1 ∧
      ((c.readAll t env typ contents).1 = [] ∨
        ∃ url, getURLFromModels env typ = .ok url ∧
          (c.readAll t env typ contents).1 = [buildRequest c "GET" url ""])) ∧
    ((c.update jm t m).1.length ≤ 1 ∧
      ((c.update jm t m).1 = [] ∨
        ∃ data, (c.update jm t m).1 =
          [buildRequest c "PATCH" (m.rootURL ++ "/" ++ m.modelId) data])) ∧
    ((c.delete t m).1 = [deleteRequest m]) := by
  refine ⟨?_, ?_, ?_, ?_, ?_⟩
  · unfold Client.create
    cases c.encodeFields jm m.value with
    | error e => exact ⟨Nat.zero_le 1, .inl rfl⟩
    | ok data =>
      dsimp only
      rw [sendRequestAndUnmarshal_requests]
      exact ⟨Nat.le_refl 1, .inr ⟨data, rfl⟩⟩
  · rw [Client.read, sendRequestAndUnmarshal_requests]
  · unfold Client.readAll
    cases getURLFromModels env typ with
    | error e => exact ⟨Nat.zero_le 1, .inl rfl⟩
    | ok url =>
      dsimp only
      rw [sendRequestAndUnmarshal_requests]
      exact ⟨Nat.le_refl 1, .inr ⟨url, rfl, rfl⟩⟩
  · unfold Client.update
    cases c.encodeFields jm m.value with
    | error e => exact ⟨Nat.zero_le 1, .inl rfl⟩
    | ok data =>
      dsimp only
      rw [sendRequestAndUnmarshal_requests]
      exact ⟨Nat.le_refl 1, .inr ⟨data, rfl⟩⟩
  · unfold Client.delete
    cases t.send (deleteRequest m) with
    | error msg => rfl
    | ok res => rfl

/-- Claim C10: for Create and Update, the request's `Content-Type`
header is the configured content type exactly when the encoded body is
non-empty, and absent when the encoded body is the empty string. -/
theorem contentType_header_iff_nonempty_body (c : Client)
    (jm : GoValue → Except String String) (t : Transport)
    (m : ModelInstance) (data : String)
    (h : c.encodeFields jm m.value = .ok data) :
    (∀ r ∈ (c.create jm t m).1,
        r.contentType = if data = "" then none else some c.contentType) ∧
    (∀ r ∈ (c.update jm t m).1,
        r.contentType = if data = "" then none else some c.contentType) := by
  constructor
  · intro r hr
    unfold Client.create at hr
    rw [h] at hr
    dsimp only at hr
    rw [sendRequestAndUnmarshal_requests, List.mem_singleton] at hr
    subst hr
    rfl
  · intro r hr
    unfold Client.update at hr
    rw [h] at hr
    dsimp only at hr
    rw [sendRequestAndUnmarshal_requests, List.mem_singleton] at hr
    subst hr
    rfl

/-- Witness for C10: a model with no fields encodes to the empty string
under the default url-encoding client, and the one POST request Create
issues for it carries no `Content-Type` header. -/
theorem contentType_header_iff_nonempty_body_witness :
    newClient.encodeFields jmNone mEmpty.value = .ok "" ∧
    (newClient.create jmNone t200 mEmpty).1 =
      [buildRequest newClient "POST" "/todos" ""] ∧
    (buildRequest newClient "POST" "/todos" "").contentType = none := by
  refine ⟨rfl, rfl, ?_⟩
  have hmem : buildRequest newClient "POST" "/todos" "" ∈
      (newClient.create jmNone t200 mEmpty).1 :=
    List.mem_singleton.mpr rfl
  exact ((contentType_header_iff_nonempty_body newClient jmNone t200 mEmpty "" rfl).1
    (buildRequest newClient "POST" "/todos" "") hmem).trans (if_pos rfl)

end Rest
